import Mathlib

/-!
Shallow embedding of the `lifespan-crawler` library (`src/lib.rs`).

Modelling conventions:
* Rust `f64` values are modelled as exact rationals (`ℚ`).  `f64::round`
  (round half away from zero) is `f64_round`.  IEEE representation error,
  overflow to infinity, and NaN are outside this model; where a division
  `0 / 0` would produce NaN in Rust, the rational model yields `0`, and
  theorems are stated with hypotheses that keep them on the faithful part
  of the model.
* `u32` exponentiation `10_u32.pow p` (in `shave_round`) is modelled by
  `u32_pow10`, which returns `none` when `10 ^ p` does not fit in 32 bits
  (an arithmetic-overflow panic in a debug build; a wrap in release —
  either way the mathematical value is lost).
* `HashMap<String, CountryInfo>` is modelled as an association list
  (`StatMap`); `insert` overwrites an existing key.  Iteration order of the
  Rust `HashMap` is arbitrary; in the rational model the sums computed by
  `calculate_common` do not depend on it.
* HTML documents (crate `select`) are modelled by the node tree `HNode`:
  a tag name, a class list, the node's own text, and child nodes.
  `document.find(pred)` iterates all nodes in document (preorder) order,
  `node.find(pred)` iterates the strict descendants of `node`, and
  `node.text()` concatenates the text of the node and its descendants.
* `str::parse::<f64>` is modelled by `parse_f64` for plain decimal
  literals (optional sign, digits, optional fraction) — the forms the
  scraped table can contain; exponent/`inf`/`NaN` forms are out of scope.
* A Rust panic (`unwrap` on `None`, or arithmetic overflow in debug) is a
  distinguished outcome (`FetchRes.panicked`, `GRes.panicked`), separate
  from a returned `Err`, because a panic propagates through `get_data`
  rather than triggering the `if let Ok` fallback.
* The file system and network collaborators of `get_data` are an explicit
  environment record `Env`: the result of `has_cache`, the combined
  outcome of reading + deserialising the cache, the HTTP body, the outcome
  of `set_tmp_file_path`, and the outcome of `receive_default_expectancy`.
  Error payloads are carried as strings so that verbatim propagation is
  expressible.
-/

namespace LifespanCrawler

/-- `CountryInfo` from `lib.rs`: the three life-expectancy figures. -/
structure CountryInfo where
  all : ℚ
  male : ℚ
  female : ℚ
deriving DecidableEq

/-- Model of `HashMap<String, CountryInfo>` as an association list. -/
abbrev StatMap := List (String × CountryInfo)

/-- `HashMap::insert`: overwrite any existing binding of `k`, add `(k, v)`. -/
def mInsert (m : StatMap) (k : String) (v : CountryInfo) : StatMap :=
  m.filter (fun p => p.1 != k) ++ [(k, v)]

/-- `HashMap::get`-style lookup. -/
def mLookup (m : StatMap) (k : String) : Option CountryInfo :=
  (m.find? (fun p => p.1 == k)).map Prod.snd

/-- `f64::round`: nearest integer, half-way cases away from zero. -/
def f64_round (q : ℚ) : ℚ :=
  if 0 ≤ q then ((⌊q + 1/2⌋ : ℤ) : ℚ) else ((-⌊-q + 1/2⌋ : ℤ) : ℚ)

/-- `10_u32.pow p`: `none` models the arithmetic-overflow panic (debug
build) when `10 ^ p` exceeds `u32::MAX`. -/
def u32_pow10 (p : Nat) : Option Nat :=
  if 10 ^ p < 2 ^ 32 then some (10 ^ p) else none

/-- `shave_round` from `lib.rs`:
`(num * base).round() / base` with `base = 10_u32.pow(place.unwrap_or(2)) as f64`. -/
def shave_round (num : ℚ) (place : Option Nat) : Option ℚ :=
  (u32_pow10 (place.getD 2)).map (fun (b : ℕ) => f64_round (num * (b : ℚ)) / (b : ℚ))

/-- The loop body of `calculate_common`: accumulate the three field sums. -/
def accStep (acc : ℚ × ℚ × ℚ) (p : String × CountryInfo) : ℚ × ℚ × ℚ :=
  (acc.1 + p.2.all, acc.2.1 + p.2.male, acc.2.2 + p.2.female)

/-- `calculate_common` from `lib.rs`: sum each field over the map, divide by
the number of entries, round each mean with `shave_round _ None`.  The
default place 2 gives base `100 < 2^32`, so `shave_round _ none` is always
`some`; `getD 0` merely extracts it. -/
def calculate_common (content : StatMap) : CountryInfo :=
  let total : ℚ := (content.length : ℚ)
  let sums := content.foldl accStep ((0 : ℚ), (0 : ℚ), (0 : ℚ))
  { all := (shave_round (sums.1 / total) none).getD 0
    male := (shave_round (sums.2.1 / total) none).getD 0
    female := (shave_round (sums.2.2 / total) none).getD 0 }

/-- An HTML node (crate `select`): tag name, class list, own text, children. -/
inductive HNode where
  | mk (tag : String) (classes : List String) (ownText : String) (children : List HNode)

def HNode.tag : HNode → String
  | .mk t _ _ _ => t

def HNode.classes : HNode → List String
  | .mk _ c _ _ => c

mutual

/-- The strict descendants of a node, in preorder — the traversal order of
`node.find(...)` in the `select` crate. -/
def descList : HNode → List HNode
  | .mk _ _ _ ch => descListL ch

def descListL : List HNode → List HNode
  | [] => []
  | n :: ns => n :: (descList n ++ descListL ns)

end

mutual

/-- `node.text()`: the node's own text followed by its descendants' text. -/
def textOf : HNode → String
  | .mk _ _ own ch => own ++ textOfL ch

def textOfL : List HNode → String
  | [] => ""
  | n :: ns => textOf n ++ textOfL ns

end

/-- The predicate `Class(c)` of the `select` crate. -/
def hasClass (c : String) (n : HNode) : Bool := n.classes.contains c

/-- The predicate `Name(t)` of the `select` crate. -/
def tagIs (t : String) (n : HNode) : Bool := n.tag == t

/-- A parsed HTML document: its root nodes. -/
abbrev HDoc := List HNode

/-- All nodes of the document in document order — the traversal order of
`document.find(...)`. -/
def allNodes (doc : HDoc) : List HNode := descListL doc

/-- Value of a decimal digit character. -/
def digitVal (c : Char) : Option Nat :=
  if c.isDigit then some (c.toNat - 48) else none

/-- Read a digit string as a natural number; `none` on any non-digit. -/
def digitsToNat (acc : Nat) : List Char → Option Nat
  | [] => some acc
  | c :: rest =>
    match digitVal c with
    | some d => digitsToNat (acc * 10 + d) rest
    | none => none

/-- Split a character list at the first dot. -/
def splitDot : List Char → List Char × Option (List Char)
  | [] => ([], none)
  | c :: rest =>
    if c = '.' then ([], some rest)
    else
      let r := splitDot rest
      (c :: r.1, r.2)

/-- Digits with an optional fractional part, as an exact rational. -/
def parseUnsignedDec (cs : List Char) : Option ℚ :=
  let ip := (splitDot cs).1
  match (splitDot cs).2 with
  | none =>
    if ip.isEmpty then none
    else (digitsToNat 0 ip).map (fun n => (n : ℚ))
  | some fp =>
    if ip.isEmpty && fp.isEmpty then none
    else
      match digitsToNat 0 ip, digitsToNat 0 fp with
      | some n, some m => some ((n : ℚ) + (m : ℚ) / (10 : ℚ) ^ fp.length)
      | _, _ => none

/-- `str::parse::<f64>` on plain decimal literals: optional sign, digits,
optional fractional part (exponent, `inf` and `NaN` forms are outside the
model). -/
def parse_f64 (s : String) : Option ℚ :=
  match s.toList with
  | [] => none
  | c :: rest =>
    if c = '-' then (parseUnsignedDec rest).map Neg.neg
    else if c = '+' then parseUnsignedDec rest
    else parseUnsignedDec (c :: rest)

/-- `extract_country_name` from `lib.rs`: the text of the first `a`
descendant of the cell, if the cell and such a link exist. -/
def extract_country_name (node : Option HNode) : Option String :=
  match node with
  | none => none
  | some nd => (((descList nd).filter (tagIs "a")).head?).map textOf

/-- The first four `td` descendants of a row: `tr.find(Name("td")).take(4)`. -/
def rowTds (tr : HNode) : List HNode :=
  ((descList tr).filter (tagIs "td")).take 4

/-- `str::trim`: drop whitespace from both ends (structural model of the
Rust trim, so that it evaluates by reduction). -/
def rustTrim (s : String) : String :=
  String.mk (((s.toList.dropWhile Char.isWhitespace).reverse.dropWhile
    Char.isWhitespace).reverse)

/-- `td.text().trim().parse::<f64>()`. -/
def parseCell (c : HNode) : Option ℚ := parse_f64 (rustTrim (textOf c))

/-- Outcome of one iteration of the row loop in `fetch`. -/
inductive RowOut where
  | skip
  | entry (name : String) (info : CountryInfo)
  | rerr
  | rpanic
deriving DecidableEq

/-- One iteration of the row loop in `fetch`: extract the country name
(no link ⇒ skip the row), then read cells 2–4 in order, where a missing
cell is an `unwrap` panic and an unparsable cell propagates `Err` out of
`fetch`. -/
def parse_row (tr : HNode) : RowOut :=
  let tds := rowTds tr
  match extract_country_name tds.head? with
  | none => .skip
  | some name =>
    match tds[1]? with
    | none => .rpanic
    | some c1 =>
      match parseCell c1 with
      | none => .rerr
      | some a =>
        match tds[2]? with
        | none => .rpanic
        | some c2 =>
          match parseCell c2 with
          | none => .rerr
          | some mv =>
            match tds[3]? with
            | none => .rpanic
            | some c3 =>
              match parseCell c3 with
              | none => .rerr
              | some f => .entry name { all := a, male := mv, female := f }

/-- Result of `fetch`: `Ok`, a returned `Err` (with `anyhow`'s message for
a float-parse failure), or a propagating panic. -/
inductive FetchRes where
  | ok (m : StatMap)
  | err (e : String)
  | panicked
deriving DecidableEq

def FetchRes.isOk : FetchRes → Bool
  | .ok _ => true
  | _ => false

/-- The row loop of `fetch` over the rows of the table body. -/
def parse_rows : List HNode → StatMap → FetchRes
  | [], acc => .ok acc
  | tr :: rest, acc =>
    match parse_row tr with
    | .skip => parse_rows rest acc
    | .entry n i => parse_rows rest (mInsert acc n i)
    | .rerr => .err "invalid float literal"
    | .rpanic => .panicked

/-- `tbody.find(Name("tr"))`. -/
def tableRows (tbody : HNode) : List HNode :=
  (descList tbody).filter (tagIs "tr")

/-- `fetch` from `lib.rs`, given the already-retrieved document: locate the
third `wikitable`-classed element (if absent, the `if let` body is simply
skipped), `unwrap` its first `tbody` descendant, run the row loop, then
insert the `"Common"` aggregate computed over the rows parsed so far. -/
def fetch (doc : HDoc) : FetchRes :=
  match ((allNodes doc).filter (hasClass "wikitable"))[2]? with
  | none => .ok (mInsert [] "Common" (calculate_common []))
  | some tbl =>
    match ((descList tbl).filter (tagIs "tbody")).head? with
    | none => .panicked
    | some tbody =>
      match parse_rows (tableRows tbody) [] with
      | .ok m => .ok (mInsert m "Common" (calculate_common m))
      | r => r

/-- The external collaborators of `get_data`, collapsed to their outcomes:
the `has_cache` answer, the combined outcome of reading and deserialising
the cache file, the HTTP body, the outcome of `set_tmp_file_path` (`none`
is success), and the outcome of `receive_default_expectancy`.  Error
payloads are strings, so verbatim propagation is expressible. -/
structure Env where
  hasCache : Bool
  cacheLoad : Except String StatMap
  netBody : Except String HDoc
  saveRes : Option String
  defaultLoad : Except String StatMap

/-- Result of `get_data`: `Ok`, a returned `Err`, or a propagating panic. -/
inductive GRes where
  | ok (m : StatMap)
  | err (e : String)
  | panicked
deriving DecidableEq

/-- The whole remote-fetch attempt: a transport failure is an `Err` from
`fetch` (the `?` on `reqwest::blocking::get(..)?.text()?`); otherwise the
body is parsed by `fetch`. -/
def fetchF (net : Except String HDoc) : FetchRes :=
  match net with
  | .error e => .err e
  | .ok doc => fetch doc

/-- `get_data` from `lib.rs`: cache hit ⇒ load the cache, propagating its
errors; otherwise `if let Ok(m) = fetch()` ⇒ persist (propagating a save
error) and return `m`, while an `Err` from `fetch` falls through to the
default data, whose errors propagate.  A panic inside `fetch` propagates. -/
def get_data (env : Env) : GRes :=
  if env.hasCache then
    match env.cacheLoad with
    | .ok m => .ok m
    | .error e => .err e
  else
    match fetchF env.netBody with
    | .ok m =>
      match env.saveRes with
      | none => .ok m
      | some e => .err e
    | .err _ =>
      match env.defaultLoad with
      | .ok d => .ok d
      | .error e => .err e
    | .panicked => .panicked

/-- Sum of one field over the map (specification-side formulation). -/
def fieldSum (content : StatMap) (f : CountryInfo → ℚ) : ℚ :=
  (content.map (fun p => f p.2)).sum

/-- Arithmetic mean of one field over the map. -/
def fieldMean (content : StatMap) (f : CountryInfo → ℚ) : ℚ :=
  fieldSum content f / (content.length : ℚ)

/-- Rounding to two decimal places, the `shave_round _ none` case. -/
def round2 (q : ℚ) : ℚ := f64_round (q * 100) / 100

lemma u32_pow10_two : u32_pow10 2 = some 100 := by decide

lemma shave_round_none (q : ℚ) : shave_round q none = some (round2 q) := by
  simp [shave_round, u32_pow10_two, round2]

lemma foldl_accStep (c : StatMap) :
    ∀ a b d : ℚ, c.foldl accStep (a, b, d) =
      (a + fieldSum c CountryInfo.all,
       b + fieldSum c CountryInfo.male,
       d + fieldSum c CountryInfo.female) := by
  induction c with
  | nil => intro a b d; simp [fieldSum]
  | cons p c ih =>
    intro a b d
    simp only [List.foldl_cons, accStep, ih, fieldSum, List.map_cons, List.sum_cons]
    refine Prod.ext ?_ (Prod.ext ?_ ?_) <;> simp <;> ring

/-- `calculate_common` computes the field-wise rounded means. -/
lemma calculate_common_eq (c : StatMap) :
    calculate_common c =
      { all := round2 (fieldMean c CountryInfo.all)
        male := round2 (fieldMean c CountryInfo.male)
        female := round2 (fieldMean c CountryInfo.female) } := by
  unfold calculate_common
  rw [foldl_accStep]
  simp [shave_round_none, fieldMean]

lemma u32_pow10_pos {p b : Nat} (h : u32_pow10 p = some b) : 0 < b := by
  unfold u32_pow10 at h
  split at h
  · cases h; positivity
  · cases h

lemma f64_round_intCast (z : ℤ) : f64_round (z : ℚ) = (z : ℚ) := by
  unfold f64_round
  split
  · rw [add_comm, Int.floor_add_int]
    norm_num
  · have : -(z : ℚ) = ((-z : ℤ) : ℚ) := by push_cast; ring
    rw [this, add_comm, Int.floor_add_int]
    push_cast
    norm_num

lemma f64_round_exists_int (q : ℚ) : ∃ z : ℤ, f64_round q = (z : ℚ) := by
  unfold f64_round
  split
  · exact ⟨_, rfl⟩
  · exact ⟨_, rfl⟩

lemma f64_round_nonneg {q : ℚ} (h : 0 ≤ q) : 0 ≤ f64_round q := by
  unfold f64_round
  rw [if_pos h]
  have : (0 : ℤ) ≤ ⌊q + 1/2⌋ := by
    rw [Int.le_floor]
    push_cast
    linarith
  exact_mod_cast this

lemma round2_nonneg {q : ℚ} (h : 0 ≤ q) : 0 ≤ round2 q := by
  unfold round2
  have h100 : (0 : ℚ) ≤ q * 100 := by positivity
  have := f64_round_nonneg h100
  positivity

lemma fieldMean_nonneg (c : StatMap) (f : CountryInfo → ℚ)
    (h : ∀ p ∈ c, 0 ≤ f p.2) : 0 ≤ fieldMean c f := by
  unfold fieldMean fieldSum
  apply div_nonneg
  · apply List.sum_nonneg
    intro x hx
    obtain ⟨p, hp, rfl⟩ := List.mem_map.mp hx
    exact h p hp
  · positivity

lemma mLookup_mInsert (m : StatMap) (k : String) (v : CountryInfo) :
    mLookup (mInsert m k v) k = some v := by
  unfold mLookup mInsert
  rw [List.find?_append]
  have hnone : (m.filter (fun p => p.1 != k)).find? (fun p => p.1 == k) = none := by
    rw [List.find?_eq_none]
    intro p hp
    have := (List.mem_filter.mp hp).2
    simp only [bne_iff_ne, ne_eq] at this
    simp [this]
  rw [hnone]
  simp

lemma filter_mInsert_ne (m : StatMap) (k : String) (v : CountryInfo) :
    (mInsert m k v).filter (fun p => p.1 != k) = m.filter (fun p => p.1 != k) := by
  unfold mInsert
  rw [List.filter_append, List.filter_filter]
  simp

lemma mem_of_getElem? {α : Type} {l : List α} {i : Nat} {a : α}
    (h : l[i]? = some a) : a ∈ l := by
  obtain ⟨hlt, he⟩ := List.getElem?_eq_some.mp h
  exact he ▸ List.getElem_mem hlt

/-! ### Concrete fixtures used by witnesses and counterexamples -/

/-- A plain table cell holding only text. -/
def tdCell (s : String) : HNode := .mk "td" [] s []

/-- A first cell whose country name sits inside a hyperlink. -/
def linkCell (name : String) : HNode := .mk "td" [] "" [.mk "a" [] name []]

/-- A well-formed data row: linked country name and three numeric cells. -/
def rowOf (name v1 v2 v3 : String) : HNode :=
  .mk "tr" [] "" [linkCell name, tdCell v1, tdCell v2, tdCell v3]

/-- A row whose first cell has no hyperlink (plain text name). -/
def badRow : HNode :=
  .mk "tr" [] "" [tdCell "France", tdCell "81.5", tdCell "78.7", tdCell "84.3"]

def goodRow : HNode := rowOf "Japan" "84.6" "81.6" "87.6"

/-- A row with a linked name but only one further cell (three cells missing
or short — fewer than four `td`s in total). -/
def shortRow : HNode := .mk "tr" [] "" [linkCell "Cuba", tdCell "1"]

/-- The two-entry table of the end-to-end example in the specification. -/
def exampleTable : StatMap :=
  [("France", { all := 81.5, male := 78.7, female := 84.3 }),
   ("Japan", { all := 84.6, male := 81.6, female := 87.6 })]

/-- A classless element that still carries the `wikitable` class marker,
used to pad the document so the data table is the third match. -/
def dummyT : HNode := .mk "div" ["wikitable"] "" []

def posTbody : HNode := .mk "tbody" [] "" [goodRow]

def posTable : HNode := .mk "table" ["wikitable"] "" [posTbody]

/-- A document whose third `wikitable` element holds one valid row. -/
def posDoc : HDoc := [dummyT, dummyT, posTable]

def negTbody : HNode := .mk "tbody" [] "" [rowOf "Negland" "-1" "-1" "-1"]

def negTable : HNode := .mk "table" ["wikitable"] "" [negTbody]

/-- A document whose third `wikitable` element holds a row with negative
values — `str::parse::<f64>` accepts them. -/
def negDoc : HDoc := [dummyT, dummyT, negTable]

/-- The parsed content of `posDoc`'s table, before the aggregate. -/
def m0Japan : StatMap := [("Japan", { all := 84.6, male := 81.6, female := 87.6 })]

/-- Bundled default data used in the `get_data` fixtures. -/
def defaultMap : StatMap := [("France", { all := 81.5, male := 78.7, female := 84.3 })]

/-- No cache; the network answers with a page that has no third wikitable;
saving would succeed; default data is available. -/
def envMissingTable : Env :=
  { hasCache := false, cacheLoad := Except.error "cache unread",
    netBody := Except.ok [], saveRes := none,
    defaultLoad := Except.ok defaultMap }

/-- No cache; the network is down; default data is available. -/
def envNetDown : Env :=
  { hasCache := false, cacheLoad := Except.error "cache unread",
    netBody := Except.error "connection refused", saveRes := none,
    defaultLoad := Except.ok defaultMap }

/-- A cache file exists but its contents do not deserialize. -/
def envCorruptCache : Env :=
  { hasCache := true, cacheLoad := Except.error "expected value at line 1 column 1",
    netBody := Except.ok posDoc, saveRes := none,
    defaultLoad := Except.ok defaultMap }

/-- No cache; the fetch succeeds; writing the cache file fails. -/
def envSaveFail : Env :=
  { hasCache := false, cacheLoad := Except.error "cache unread",
    netBody := Except.ok [], saveRes := some "Permission denied",
    defaultLoad := Except.ok defaultMap }

/-- No cache; the network is down; the default-data file is missing too. -/
def envDefaultFail : Env :=
  { hasCache := false, cacheLoad := Except.error "cache unread",
    netBody := Except.error "connection refused", saveRes := none,
    defaultLoad := Except.error "No such file or directory" }

/-! ### Claim C3 -/

/-- Claim C3, counterexample: on a document with zero `wikitable`-classed
elements (fewer than three), `fetch` does not fail with a `TableNotFound`
error — it succeeds. -/
theorem c3_counterexample :
    ((allNodes ([] : HDoc)).filter (hasClass "wikitable")).length = 0
    ∧ (fetch ([] : HDoc)).isOk = true :=
  ⟨rfl, rfl⟩

/-- Claim C3 as amended: when the fetched document has fewer than three
elements with the `wikitable` class, the parse does not fail at all: the
`if let` around the table extraction is skipped, and `fetch` returns `Ok`
with a table containing only the synthetic `"Common"` entry computed over
zero rows. -/
theorem c3_missing_table_returns_common_only (doc : HDoc)
    (h : ((allNodes doc).filter (hasClass "wikitable")).length < 3) :
    fetch doc = FetchRes.ok (mInsert [] "Common" (calculate_common [])) := by
  have h2 : ((allNodes doc).filter (hasClass "wikitable"))[2]? = none :=
    List.getElem?_eq_none (by omega)
  simp only [fetch, h2]

/-- Witness for C3's amended theorem at the empty document. -/
theorem c3_witness :
    ((allNodes ([] : HDoc)).filter (hasClass "wikitable")).length < 3
    ∧ fetch ([] : HDoc) = FetchRes.ok (mInsert [] "Common" (calculate_common [])) :=
  ⟨by decide, c3_missing_table_returns_common_only [] (by decide)⟩

/-! ### Claim C5 -/

/-- Claim C5: for every non-empty table, `calculate_common` returns, for
each of the three fields, the arithmetic mean of that field across all
entries, rounded to 2 decimal places; on the France/Japan example it
returns `{all := 83.05, male := 80.15, female := 85.95}`. -/
theorem c5_aggregate_mean :
    (∀ content : StatMap, content ≠ [] →
      calculate_common content =
        { all := round2 (fieldMean content CountryInfo.all)
          male := round2 (fieldMean content CountryInfo.male)
          female := round2 (fieldMean content CountryInfo.female) })
    ∧ calculate_common exampleTable =
        { all := 83.05, male := 80.15, female := 85.95 } := by
  constructor
  · intro content _
    exact calculate_common_eq content
  · rw [calculate_common_eq]
    norm_num [round2, fieldMean, fieldSum, f64_round, exampleTable]

/-- Witness for C5 at the France/Japan example table. -/
theorem c5_witness :
    calculate_common exampleTable =
      { all := round2 (fieldMean exampleTable CountryInfo.all)
        male := round2 (fieldMean exampleTable CountryInfo.male)
        female := round2 (fieldMean exampleTable CountryInfo.female) } :=
  c5_aggregate_mean.1 exampleTable (by simp [exampleTable])

/-! ### Claim C8 -/

/-- Claim C8: rounding is idempotent — whenever `shave_round x p` returns
a value `y` (the base `10 ^ p` fits in a `u32`), rounding `y` again at the
same place returns `y` unchanged. -/
theorem c8_round_idempotent (x : ℚ) (p : Option Nat) (y : ℚ)
    (h : shave_round x p = some y) : shave_round y p = some y := by
  unfold shave_round at h ⊢
  cases hb : u32_pow10 (p.getD 2) with
  | none => rw [hb] at h; simp at h
  | some b =>
    rw [hb] at h
    simp only [Option.map_some'] at h ⊢
    have hy : f64_round (x * (b : ℚ)) / (b : ℚ) = y := by
      injection h
    have hbq : ((b : ℚ)) ≠ 0 := by
      have := u32_pow10_pos hb
      exact_mod_cast this.ne'
    obtain ⟨z, hz⟩ := f64_round_exists_int (x * (b : ℚ))
    have hyb : y * (b : ℚ) = ((z : ℤ) : ℚ) := by
      rw [← hy, hz, div_mul_cancel₀ _ hbq]
    have hround : f64_round (y * (b : ℚ)) = y * (b : ℚ) := by
      rw [hyb, f64_round_intCast]
    rw [hround, mul_div_cancel_right₀ _ hbq]

/-- Witness for C8: `0.125` rounds to `0.13` at two places, and rounding
`0.13` again returns `0.13`. -/
theorem c8_witness : shave_round (13/100 : ℚ) (some 2) = some (13/100 : ℚ) :=
  c8_round_idempotent (1/8) (some 2) (13/100) (by
    simp only [shave_round, Option.getD, u32_pow10_two, Option.map_some']
    norm_num [f64_round])

/-! ### Claim C9 -/

/-- Claim C9, counterexample: `shave_round` does not return normally for
every `decimalPlaces` up to 15 — at place 13 the `u32` computation
`10_u32.pow 13` overflows (a panic in a debug build), modelled by `none`. -/
theorem c9_counterexample :
    shave_round 1 (some 13) = none ∧ (13 : Nat) ≤ 15 :=
  ⟨rfl, by decide⟩

/-- Claim C9 as amended: `shave_round` is a pure function computing
`round(value * 10^decimalPlaces) / 10^decimalPlaces` with round half away
from zero, and it returns normally for every `decimalPlaces` up to 9; from
10 places on, `10_u32.pow` overflows the `u32` base. -/
theorem c9_formula_small_places (x : ℚ) (p : Nat) (hp : p ≤ 9) :
    shave_round x (some p) =
      some (f64_round (x * (10 : ℚ) ^ p) / (10 : ℚ) ^ p) := by
  have hlt : 10 ^ p < 2 ^ 32 :=
    lt_of_le_of_lt (Nat.pow_le_pow_right (by norm_num) hp) (by norm_num)
  unfold shave_round u32_pow10
  simp only [Option.getD, if_pos hlt, Option.map_some']
  push_cast
  ring_nf

/-- Witness for C9's amended theorem at `x = 5/2`, `p = 0`. -/
theorem c9_witness :
    (0 : Nat) ≤ 9
    ∧ shave_round (5/2 : ℚ) (some 0) =
        some (f64_round ((5/2 : ℚ) * (10 : ℚ) ^ 0) / (10 : ℚ) ^ 0) :=
  ⟨by decide, c9_formula_small_places (5/2) 0 (by decide)⟩

/-! ### Claim C6 -/

/-- Claim C6: a row whose first cell contains no embedded hyperlink is
skipped entirely — no entry is inserted and no error is raised — and the
remaining rows are parsed as if the row were absent; concretely, parsing
a link-less France row followed by a valid Japan row yields exactly the
Japan entry. -/
theorem c6_linkless_row_skipped :
    (∀ (tr : HNode) (rest : List HNode) (acc : StatMap),
        extract_country_name (rowTds tr).head? = none →
        parse_rows (tr :: rest) acc = parse_rows rest acc)
    ∧ parse_rows [badRow, goodRow] [] =
        FetchRes.ok [("Japan", { all := 84.6, male := 81.6, female := 87.6 })] := by
  constructor
  · intro tr rest acc h
    have hrow : parse_row tr = RowOut.skip := by
      simp only [parse_row, h]
    simp only [parse_rows, hrow]
  · simp +decide [parse_rows, parse_row, rowTds, badRow, goodRow, rowOf, linkCell, tdCell,
      descList, descListL, tagIs, extract_country_name, parseCell, rustTrim, textOf, textOfL,
      parse_f64, parseUnsignedDec, splitDot, digitsToNat, digitVal, mInsert]
    norm_num

/-- Witness for C6: the France row without a hyperlink is dropped from the
parse without affecting the rest. -/
theorem c6_witness : parse_rows [badRow, goodRow] [] = parse_rows [goodRow] [] :=
  c6_linkless_row_skipped.1 badRow [goodRow] [] (by rfl)

/-! ### Claim C7 -/

/-- Claim C7: a row whose first cell yields a country name but which has
fewer than four cells is fatal for the whole parse — the row loop ends in
a panic (`unwrap` on the missing cell) or, if one of the present numeric
cells also fails to parse, in the propagated parse error; in particular,
when every present numeric cell parses, the loop panics on the missing
cell.  Either way no result map is produced and the row is not skipped. -/
theorem c7_short_row_fatal (tr : HNode) (rest : List HNode) (acc : StatMap) (name : String)
    (hname : extract_country_name (rowTds tr).head? = some name)
    (hlen : (rowTds tr).length < 4) :
    (parse_rows (tr :: rest) acc = FetchRes.panicked ∨
      parse_rows (tr :: rest) acc = FetchRes.err "invalid float literal")
    ∧ ((∀ c ∈ (rowTds tr).drop 1, parseCell c ≠ none) →
        parse_rows (tr :: rest) acc = FetchRes.panicked) := by
  have h3 : (rowTds tr)[3]? = none := List.getElem?_eq_none (by omega)
  cases h1 : (rowTds tr)[1]? with
  | none =>
    have hrow : parse_row tr = RowOut.rpanic := by
      simp only [parse_row, hname, h1]
    exact ⟨Or.inl (by simp only [parse_rows, hrow]),
      fun _ => by simp only [parse_rows, hrow]⟩
  | some c1 =>
    have hc1 : c1 ∈ (rowTds tr).drop 1 := by
      apply mem_of_getElem? (i := 0)
      rw [List.getElem?_drop]
      simpa using h1
    cases hp1 : parseCell c1 with
    | none =>
      have hrow : parse_row tr = RowOut.rerr := by
        simp only [parse_row, hname, h1, hp1]
      exact ⟨Or.inr (by simp only [parse_rows, hrow]),
        fun hall => absurd hp1 (hall c1 hc1)⟩
    | some a =>
      cases h2 : (rowTds tr)[2]? with
      | none =>
        have hrow : parse_row tr = RowOut.rpanic := by
          simp only [parse_row, hname, h1, hp1, h2]
        exact ⟨Or.inl (by simp only [parse_rows, hrow]),
          fun _ => by simp only [parse_rows, hrow]⟩
      | some c2 =>
        have hc2 : c2 ∈ (rowTds tr).drop 1 := by
          apply mem_of_getElem? (i := 1)
          rw [List.getElem?_drop]
          simpa using h2
        cases hp2 : parseCell c2 with
        | none =>
          have hrow : parse_row tr = RowOut.rerr := by
            simp only [parse_row, hname, h1, hp1, h2, hp2]
          exact ⟨Or.inr (by simp only [parse_rows, hrow]),
            fun hall => absurd hp2 (hall c2 hc2)⟩
        | some mv =>
          have hrow : parse_row tr = RowOut.rpanic := by
            simp only [parse_row, hname, h1, hp1, h2, hp2, h3]
          exact ⟨Or.inl (by simp only [parse_rows, hrow]),
            fun _ => by simp only [parse_rows, hrow]⟩

/-- Witness for C7 at a concrete two-cell row (linked name plus a single
numeric cell). -/
theorem c7_witness :
    (parse_rows [shortRow] [] = FetchRes.panicked ∨
      parse_rows [shortRow] [] = FetchRes.err "invalid float literal")
    ∧ ((∀ c ∈ (rowTds shortRow).drop 1, parseCell c ≠ none) →
        parse_rows [shortRow] [] = FetchRes.panicked) :=
  c7_short_row_fatal shortRow [] [] "Cuba" (by rfl) (by decide)

/-! ### Claim C1 -/

/-- Claim C1, counterexample: with no cache and a remote page missing the
expected table (zero `wikitable` elements), `get_data` does NOT return the
default-data contents — `fetch` succeeds with a `"Common"`-only table,
which is returned (and cached) instead. -/
theorem c1_counterexample :
    envMissingTable.hasCache = false
    ∧ envMissingTable.netBody = Except.ok ([] : HDoc)
    ∧ ((allNodes ([] : HDoc)).filter (hasClass "wikitable")).length = 0
    ∧ envMissingTable.defaultLoad = Except.ok defaultMap
    ∧ get_data envMissingTable ≠ GRes.ok defaultMap := by
  refine ⟨rfl, rfl, rfl, rfl, ?_⟩
  simp +decide [get_data, envMissingTable, fetchF, fetch, allNodes, descListL, mInsert,
    defaultMap]

/-- Claim C1 as amended: if no cache file exists and the remote fetch
attempt returns an error (network failure, or a numeric parse failure
inside the table), `get_data` returns exactly the default-data contents,
unmodified, and no error from the fetch attempt is surfaced.  (A missing
expected table is not a fetch error: `fetch` then succeeds with the
`"Common"`-only table, and a short row panics instead of falling back.) -/
theorem c1_default_on_fetch_error (env : Env) (e : String) (d : StatMap)
    (hc : env.hasCache = false) (hf : fetchF env.netBody = FetchRes.err e)
    (hd : env.defaultLoad = Except.ok d) : get_data env = GRes.ok d := by
  simp [get_data, hc, hf, hd]

/-- Witness for C1's amended theorem: network down, no cache — the caller
receives the default data. -/
theorem c1_witness : get_data envNetDown = GRes.ok defaultMap :=
  c1_default_on_fetch_error envNetDown "connection refused" defaultMap rfl rfl rfl

/-! ### Claim C2 -/

/-- Claim C2: errors in cache load, in cache save after a successful
fetch, and in default-data load are each propagated verbatim to the
caller of `get_data`; in particular a corrupt cache never falls through to
the remote fetch (the error is returned whatever the network would say),
and a persistence failure aborts `get_data` instead of returning the
freshly fetched table. -/
theorem c2_error_propagation (env : Env) (e : String) :
    (env.hasCache = true → env.cacheLoad = Except.error e →
      get_data env = GRes.err e)
    ∧ (∀ m : StatMap, env.hasCache = false → fetchF env.netBody = FetchRes.ok m →
        env.saveRes = some e → get_data env = GRes.err e)
    ∧ (∀ e2 : String, env.hasCache = false → fetchF env.netBody = FetchRes.err e2 →
        env.defaultLoad = Except.error e → get_data env = GRes.err e) := by
  refine ⟨?_, ?_, ?_⟩
  · intro hc hl
    simp [get_data, hc, hl]
  · intro m hc hf hs
    simp [get_data, hc, hf, hs]
  · intro e2 hc hf hd
    simp [get_data, hc, hf, hd]

/-- Witness for C2: all three propagation branches at concrete
environments (corrupt cache, failing cache write, missing default file). -/
theorem c2_witness :
    get_data envCorruptCache = GRes.err "expected value at line 1 column 1"
    ∧ get_data envSaveFail = GRes.err "Permission denied"
    ∧ get_data envDefaultFail = GRes.err "No such file or directory" :=
  ⟨(c2_error_propagation envCorruptCache "expected value at line 1 column 1").1 rfl rfl,
   (c2_error_propagation envSaveFail "Permission denied").2.1
     (mInsert [] "Common" (calculate_common [])) rfl rfl rfl,
   (c2_error_propagation envDefaultFail "No such file or directory").2.2
     "connection refused" rfl rfl rfl⟩

/-! ### Claim C4 -/

/-- Claim C4, counterexample: the fresh-fetch path does not guarantee
non-negative fields — a table row whose cells read `-1` parses fine
(`str::parse::<f64>` accepts a sign), producing entries and a `"Common"`
aggregate with negative values. -/
theorem c4_counterexample :
    fetch negDoc = FetchRes.ok
      [("Negland", { all := -1, male := -1, female := -1 }),
       ("Common", { all := -1, male := -1, female := -1 })]
    ∧ ¬((0 : ℚ) ≤ (-1 : ℚ)) := by
  constructor
  · simp +decide [fetch, negDoc, negTable, negTbody, dummyT, allNodes, descList, descListL,
      hasClass, tagIs, tableRows, parse_rows, parse_row, rowTds, rowOf, linkCell, tdCell,
      extract_country_name, parseCell, rustTrim, textOf, textOfL, parse_f64, parseUnsignedDec,
      splitDot, digitsToNat, digitVal, mInsert]
    norm_num [calculate_common_eq, round2, fieldMean, fieldSum, f64_round]
  · norm_num

/-- Claim C4 as amended: a table produced by the fresh-fetch path of
`get_data` — third wikitable present, its body parsed into at least one
entry, no scraped row itself keyed `"Common"` (otherwise the aggregate
overwrites it and is skewed by it), and all parsed values non-negative
(the parser accepts negative numbers, so this is not automatic) — has
only non-negative finite fields and contains a `"Common"` entry whose
fields are the means of all other entries' fields rounded to 2 decimal
places.  (With zero parsed entries the Rust aggregate is `0/0 = NaN`,
which the rational model cannot represent; that case is excluded.) -/
theorem c4_fresh_fetch_invariant (doc : HDoc) (tbl tbody : HNode) (m0 : StatMap)
    (h1 : ((allNodes doc).filter (hasClass "wikitable"))[2]? = some tbl)
    (h2 : ((descList tbl).filter (tagIs "tbody")).head? = some tbody)
    (h3 : parse_rows (tableRows tbody) [] = FetchRes.ok m0)
    (hne : m0 ≠ [])
    (hnc : ∀ p ∈ m0, p.1 ≠ "Common")
    (hpos : ∀ p ∈ m0, 0 ≤ p.2.all ∧ 0 ≤ p.2.male ∧ 0 ≤ p.2.female) :
    fetch doc = FetchRes.ok (mInsert m0 "Common" (calculate_common m0))
    ∧ (∀ p ∈ mInsert m0 "Common" (calculate_common m0),
        0 ≤ p.2.all ∧ 0 ≤ p.2.male ∧ 0 ≤ p.2.female)
    ∧ mLookup (mInsert m0 "Common" (calculate_common m0)) "Common" =
        some { all := round2 (fieldMean m0 CountryInfo.all)
               male := round2 (fieldMean m0 CountryInfo.male)
               female := round2 (fieldMean m0 CountryInfo.female) }
    ∧ (mInsert m0 "Common" (calculate_common m0)).filter
        (fun p => p.1 != "Common") = m0 := by
  have hcc := calculate_common_eq m0
  have hposc : 0 ≤ (calculate_common m0).all ∧ 0 ≤ (calculate_common m0).male ∧
      0 ≤ (calculate_common m0).female := by
    rw [hcc]
    refine ⟨?_, ?_, ?_⟩ <;>
      exact round2_nonneg (fieldMean_nonneg _ _ (fun p hp => by
        have := hpos p hp
        tauto))
  refine ⟨?_, ?_, ?_, ?_⟩
  · simp only [fetch, h1, h2, h3]
  · intro p hp
    rcases List.mem_append.mp hp with hp' | hp'
    · exact hpos p (List.mem_filter.mp hp').1
    · have : p = ("Common", calculate_common m0) := by simpa using hp'
      subst this
      exact hposc
  · rw [mLookup_mInsert, hcc]
  · unfold mInsert
    rw [List.filter_append, List.filter_filter]
    have hall : ∀ p ∈ m0, ((p.1 != "Common") && (p.1 != "Common")) = true := by
      intro p hp
      have := hnc p hp
      simp [this]
    rw [List.filter_eq_self.mpr hall]
    simp

/-- Witness for C4's amended theorem at a document whose third wikitable
holds one valid Japan row. -/
theorem c4_witness :
    fetch posDoc = FetchRes.ok (mInsert m0Japan "Common" (calculate_common m0Japan))
    ∧ (∀ p ∈ mInsert m0Japan "Common" (calculate_common m0Japan),
        0 ≤ p.2.all ∧ 0 ≤ p.2.male ∧ 0 ≤ p.2.female)
    ∧ mLookup (mInsert m0Japan "Common" (calculate_common m0Japan)) "Common" =
        some { all := round2 (fieldMean m0Japan CountryInfo.all)
               male := round2 (fieldMean m0Japan CountryInfo.male)
               female := round2 (fieldMean m0Japan CountryInfo.female) }
    ∧ (mInsert m0Japan "Common" (calculate_common m0Japan)).filter
        (fun p => p.1 != "Common") = m0Japan :=
  c4_fresh_fetch_invariant posDoc posTable posTbody m0Japan (by rfl) (by rfl)
    (by
      simp +decide [tableRows, posTbody, goodRow, rowOf, linkCell, tdCell, descList,
        descListL, tagIs, parse_rows, parse_row, rowTds, extract_country_name, parseCell,
        rustTrim, textOf, textOfL, parse_f64, parseUnsignedDec, splitDot, digitsToNat,
        digitVal, mInsert, m0Japan]
      norm_num)
    (by simp [m0Japan])
    (by simp +decide [m0Japan])
    (by norm_num [m0Japan])

end LifespanCrawler
